import Mathlib

/-
Shallow embedding of `sqliteshelf.py` (the `SQLiteDict` class and its
process-wide connection registry).

Modelling choices, all read off the source:
  * A SQL table is a list of (key, value) rows in physical (insertion)
    order; `REPLACE INTO` deletes any conflicting row and appends the new
    one, which is how SQLite executes it under the unique index the class
    creates.
  * A sqlite3 connection is a `Conn`: its in-process (pending) database
    `live`, the committed database `durable`, a `closed` flag, and a log of
    the SQL statements executed on it (so that "which statements ran" is
    observable, e.g. the lookup `__delitem__` performs before a DELETE).
  * `conn.commit()` copies `live` to `durable` and, for a file-backed
    connection, writes it to `disk`; `sqlite3.connect` loads `disk` (or an
    empty database for `:memory:`).
  * The class-level dictionaries `connection_cache` / `connection_references`
    and the pool of live connections form a `World`; connections are
    addressed by index into `World.conns`, so "the same underlying
    connection object" is "the same index".
  * Python exceptions become error results: `KeyError` is `Err.keyError`,
    and every other failure raised by touching the connection (the
    `AttributeError` from using `self.conn = None` after `close()`, sqlite's
    errors on a closed connection or a missing table) is `Err.storageFailure`,
    the spec's name for that bucket.  Operations return their result together
    with the post-state, since a raised exception does not undo the reads
    already executed.
  * `drop_connection` returns `none` where Python raises `KeyError` (release
    of a never-acquired identity).  `get_connection`'s own lookups cannot
    fail on any state reachable through the class, so it is total, with a
    harmless default on malformed worlds.
-/

/-- Association-list lookup by string key: the first matching entry wins,
exactly like a row scan under a unique index. -/
def lookupStr {α : Type} : List (String × α) → String → Option α
  | [], _ => none
  | p :: rest, k => if p.1 = k then some p.2 else lookupStr rest k

/-- Association-list update: replace the first entry with the given key, or
append a fresh entry when the key is absent (Python `dict.__setitem__`). -/
def updateStr {α : Type} : List (String × α) → String → α → List (String × α)
  | [], k, v => [(k, v)]
  | p :: rest, k, v => if p.1 = k then (k, v) :: rest else p :: updateStr rest k v

/-- Association-list deletion of every entry with the given key (Python
`del dict[k]`; the keys are unique, so at most one entry is removed). -/
def removeStr {α : Type} : List (String × α) → String → List (String × α)
  | [], _ => []
  | p :: rest, k => if p.1 = k then removeStr rest k else p :: removeStr rest k

/-- Rows of one SQL table in physical order: (key, value) pairs. -/
abbrev Table := List (String × String)

/-- One database: its tables by name. -/
abbrev DB := List (String × Table)

/-- Result of `SELECT value FROM T WHERE key = ? ... fetchone()`: the first
row whose key matches, if any. -/
def Table.selectValue (t : Table) (key : String) : Option String :=
  lookupStr t key

/-- Effect of `REPLACE INTO T (key, value) VALUES (?,?)`: SQLite deletes the
row that conflicts on the unique key index, then inserts the new row. -/
def Table.replaceInto (t : Table) (key value : String) : Table :=
  removeStr t key ++ [(key, value)]

/-- Effect of `DELETE FROM T WHERE key = ?`. -/
def Table.deleteKey (t : Table) (key : String) : Table :=
  removeStr t key

/-- Bytewise lexicographic comparison of code-point sequences: SQLite's
BINARY collation, the order `ORDER BY key` sorts TEXT by. -/
def charsLe : List Char → List Char → Bool
  | [], _ => true
  | _ :: _, [] => false
  | c :: cs, d :: ds =>
    if c.toNat < d.toNat then true
    else if d.toNat < c.toNat then false
    else charsLe cs ds

/-- Lexicographic order on strings, as SQLite's `ORDER BY` on a TEXT column
produces it. -/
def strLeb (a b : String) : Bool :=
  charsLe a.data b.data

/-- Insert one key into an already sorted key list. -/
def insertKey (x : String) : List String → List String
  | [] => [x]
  | y :: rest => if strLeb x y then x :: y :: rest else y :: insertKey x rest

/-- Sort a key list ascending by `strLeb`: the result set of
`SELECT key FROM T ORDER BY key`. -/
def sortKeys : List String → List String
  | [] => []
  | x :: rest => insertKey x (sortKeys rest)

/-- SQL statements the class executes, by shape; kept in a per-connection
log so that the statement sequence an operation issues is observable. -/
inductive Stmt where
  | createTable (table : String)
  | createIndex (table : String)
  | selectValue (table key : String)
  | replaceInto (table key value : String)
  | deleteFrom (table key : String)
  | selectKeys (table : String)
  | countRows (table : String)
deriving DecidableEq, Repr

/-- Errors an operation can raise: Python `KeyError` on a missing key, and
`StorageFailure` for every failure coming from touching the connection
(use after `close()` set `self.conn = None`, a closed sqlite connection, a
missing table). -/
inductive Err where
  | keyError (key : String)
  | storageFailure
deriving DecidableEq, Repr

/-- One sqlite3 connection: the file it was opened on, the pending
(in-process) database, the committed database, whether `close()` was called
on it, and the log of statements executed through it. -/
structure Conn where
  filename : String
  live : DB
  durable : DB
  closed : Bool
  log : List Stmt
deriving DecidableEq, Repr

/-- The process-wide state: all connection objects ever created (addressed
by index), the class-level `connection_cache` and `connection_references`
dictionaries, and the durable content of each database file. -/
structure World where
  conns : List Conn
  cache : List (String × Nat)
  refs : List (String × Int)
  disk : List (String × DB)
deriving DecidableEq, Repr

/-- Dereference a connection index. -/
def World.getConn (w : World) (cid : Nat) : Option Conn :=
  w.conns[cid]?

/-- Overwrite a connection in the pool. -/
def World.setConn (w : World) (cid : Nat) (c : Conn) : World :=
  { w with conns := w.conns.set cid c }

/-- Model of `conn.commit()`: the pending database becomes durable, and for
a file-backed connection it is written to disk. -/
def World.commit (w : World) (cid : Nat) : World :=
  match w.getConn cid with
  | none => w
  | some c =>
    let w1 := w.setConn cid { c with durable := c.live }
    if c.filename = ":memory:" then w1
    else { w1 with disk := updateStr w1.disk c.filename c.live }

/-- One logical map: `SQLiteDict`'s per-instance fields.  `conn` is the
index of the shared connection, or `none` once `close()` has run. -/
structure SQLiteDict where
  filename : String
  table : String
  lazy : Bool
  conn : Option Nat
deriving DecidableEq, Repr

/-- Static method `SQLiteDict.get_connection`: if `filename` is not in the
class-level cache, connect (loading the file's durable content, or an empty
database for `:memory:`) and record the connection with zero references;
then add one reference and return the cached connection.  Note the sentinel
`:memory:` is looked up in the cache exactly like any other filename. -/
def SQLiteDict.get_connection (w : World) (filename : String) : Nat × World :=
  let w1 :=
    if (lookupStr w.cache filename).isSome then w
    else
      let db : DB := if filename = ":memory:" then [] else (lookupStr w.disk filename).getD []
      { w with
        conns := w.conns ++ [{ filename := filename, live := db, durable := db,
                               closed := false, log := [] }],
        cache := updateStr w.cache filename w.conns.length,
        refs := updateStr w.refs filename 0 }
  match lookupStr w1.refs filename with
  | none => (0, w1)
  | some n =>
    let w2 := { w1 with refs := updateStr w1.refs filename (n + 1) }
    ((lookupStr w2.cache filename).getD 0, w2)

/-- Static method `SQLiteDict.drop_connection`: decrement the reference
count for `filename` (a `KeyError`, i.e. `none`, if it was never acquired);
if the count is now exactly 0, commit and close the cached connection and
delete the cache entry (the reference-count entry itself stays behind). -/
def SQLiteDict.drop_connection (w : World) (filename : String) : Option World :=
  match lookupStr w.refs filename with
  | none => none
  | some n =>
    let w1 := { w with refs := updateStr w.refs filename (n - 1) }
    if n - 1 = 0 then
      match lookupStr w1.cache filename with
      | none => none
      | some cid =>
        let w2 := w1.commit cid
        let w3 :=
          match w2.getConn cid with
          | none => w2
          | some c => w2.setConn cid { c with closed := true }
        some { w3 with cache := removeStr w3.cache filename }
    else
      some w1

/-- Method `sync`: unconditionally `self.conn.commit()`.  Raises
(`storageFailure`) if the map is closed or its connection unusable. -/
def SQLiteDict.sync (w : World) (d : SQLiteDict) : Except Err Unit × World :=
  match d.conn with
  | none => (.error .storageFailure, w)
  | some cid =>
    match w.getConn cid with
    | none => (.error .storageFailure, w)
    | some c =>
      if c.closed then (.error .storageFailure, w)
      else (.ok (), w.commit cid)

/-- Method `maybe_sync`: commit now unless the map is lazy. -/
def SQLiteDict.maybe_sync (w : World) (d : SQLiteDict) : Except Err Unit × World :=
  if d.lazy then (.ok (), w) else SQLiteDict.sync w d

/-- Constructor `SQLiteDict.__init__`: acquire the shared connection for
`filename` through the registry, execute `CREATE TABLE IF NOT EXISTS` and
`CREATE UNIQUE INDEX IF NOT EXISTS` on it, then `maybe_sync`. -/
def SQLiteDict.init (w : World) (filename table : String) (lazy : Bool) : SQLiteDict × World :=
  let p := SQLiteDict.get_connection w filename
  let cid := p.1
  let w1 := p.2
  let w2 :=
    match w1.getConn cid with
    | none => w1
    | some c =>
      let live1 := if (lookupStr c.live table).isSome then c.live else c.live ++ [(table, [])]
      w1.setConn cid { c with live := live1,
                              log := c.log ++ [.createTable table, .createIndex table] }
  let d : SQLiteDict := { filename := filename, table := table, lazy := lazy, conn := some cid }
  (d, (SQLiteDict.maybe_sync w2 d).2)

/-- Method `__getitem__`: `SELECT value FROM T WHERE key = ?` and
`fetchone()`; `KeyError` when no row matches. -/
def SQLiteDict.getitem (w : World) (d : SQLiteDict) (key : String) : Except Err String × World :=
  match d.conn with
  | none => (.error .storageFailure, w)
  | some cid =>
    match w.getConn cid with
    | none => (.error .storageFailure, w)
    | some c =>
      if c.closed then (.error .storageFailure, w)
      else
        match lookupStr c.live d.table with
        | none => (.error .storageFailure, w)
        | some t =>
          let w1 := w.setConn cid { c with log := c.log ++ [.selectValue d.table key] }
          match t.selectValue key with
          | none => (.error (.keyError key), w1)
          | some v => (.ok v, w1)

/-- Mixin method `__contains__` (`key in d`): try `__getitem__`, catching
only `KeyError`; any other exception propagates. -/
def SQLiteDict.contains (w : World) (d : SQLiteDict) (key : String) : Except Err Bool × World :=
  match SQLiteDict.getitem w d key with
  | (.ok _, w1) => (.ok true, w1)
  | (.error (.keyError _), w1) => (.ok false, w1)
  | (.error .storageFailure, w1) => (.error .storageFailure, w1)

/-- Method `__setitem__`: `REPLACE INTO T (key, value) VALUES (?,?)`, then
`maybe_sync`. -/
def SQLiteDict.setitem (w : World) (d : SQLiteDict) (key value : String) : Except Err Unit × World :=
  match d.conn with
  | none => (.error .storageFailure, w)
  | some cid =>
    match w.getConn cid with
    | none => (.error .storageFailure, w)
    | some c =>
      if c.closed then (.error .storageFailure, w)
      else
        match lookupStr c.live d.table with
        | none => (.error .storageFailure, w)
        | some t =>
          let w1 := w.setConn cid
            { c with live := updateStr c.live d.table (t.replaceInto key value),
                     log := c.log ++ [.replaceInto d.table key value] }
          SQLiteDict.maybe_sync w1 d

/-- Method `__delitem__`: `if key not in self: raise KeyError(key)` — an
explicit lookup — and only then `DELETE FROM T WHERE key = ?` and
`maybe_sync`. -/
def SQLiteDict.delitem (w : World) (d : SQLiteDict) (key : String) : Except Err Unit × World :=
  match SQLiteDict.contains w d key with
  | (.error e, w1) => (.error e, w1)
  | (.ok false, w1) => (.error (.keyError key), w1)
  | (.ok true, w1) =>
    match d.conn with
    | none => (.error .storageFailure, w1)
    | some cid =>
      match w1.getConn cid with
      | none => (.error .storageFailure, w1)
      | some c =>
        if c.closed then (.error .storageFailure, w1)
        else
          match lookupStr c.live d.table with
          | none => (.error .storageFailure, w1)
          | some t =>
            let w2 := w1.setConn cid
              { c with live := updateStr c.live d.table (t.deleteKey key),
                       log := c.log ++ [.deleteFrom d.table key] }
            SQLiteDict.maybe_sync w2 d

/-- Method `keys`: `SELECT key FROM T ORDER BY key`, fully materialized
into a list. -/
def SQLiteDict.keys (w : World) (d : SQLiteDict) : Except Err (List String) × World :=
  match d.conn with
  | none => (.error .storageFailure, w)
  | some cid =>
    match w.getConn cid with
    | none => (.error .storageFailure, w)
    | some c =>
      if c.closed then (.error .storageFailure, w)
      else
        match lookupStr c.live d.table with
        | none => (.error .storageFailure, w)
        | some t =>
          let w1 := w.setConn cid { c with log := c.log ++ [.selectKeys d.table] }
          (.ok (sortKeys (t.map Prod.fst)), w1)

/-- Method `__len__`: `SELECT COUNT(*) FROM T`. -/
def SQLiteDict.len (w : World) (d : SQLiteDict) : Except Err Nat × World :=
  match d.conn with
  | none => (.error .storageFailure, w)
  | some cid =>
    match w.getConn cid with
    | none => (.error .storageFailure, w)
    | some c =>
      if c.closed then (.error .storageFailure, w)
      else
        match lookupStr c.live d.table with
        | none => (.error .storageFailure, w)
        | some t =>
          let w1 := w.setConn cid { c with log := c.log ++ [.countRows d.table] }
          (.ok t.length, w1)

/-- Method `close`: if `self.conn is not None`, drop one registry reference
for this map's filename and set `self.conn = None`; otherwise do nothing.
The result is `none` exactly when `drop_connection` raises. -/
def SQLiteDict.close (w : World) (d : SQLiteDict) : Option (SQLiteDict × World) :=
  match d.conn with
  | none => some (d, w)
  | some _ =>
    match SQLiteDict.drop_connection w d.filename with
    | none => none
    | some w1 => some ({ d with conn := none }, w1)

/-- The empty process state: no connections, empty cache and reference
dictionaries, nothing on disk. -/
def World.empty : World :=
  { conns := [], cache := [], refs := [], disk := [] }

/-- Keys compare in ascending lexical order when `strLeb` holds. -/
def keyLe (a b : String) : Prop := strLeb a b = true

/-- Scenario: first map opened on the in-memory sentinel (default table, eager). -/
def memOpen1 : SQLiteDict × World := SQLiteDict.init World.empty ":memory:" "shelf" false

/-- Scenario: a second map opened on the in-memory sentinel, same table. -/
def memOpen2 : SQLiteDict × World := SQLiteDict.init memOpen1.2 ":memory:" "shelf" false

/-- Scenario: state after writing key "a" through the first in-memory map. -/
def memAfterSet : World := (SQLiteDict.setitem memOpen2.2 memOpen1.1 "a" "moo").2

/-- Scenario: a lazy map on the file "test.sdb". -/
def lazyOpen1 : SQLiteDict × World := SQLiteDict.init World.empty "test.sdb" "shelf" true

/-- Scenario: a sibling lazy map on the same file, different table. -/
def lazyOpen2 : SQLiteDict × World := SQLiteDict.init lazyOpen1.2 "test.sdb" "othertable" true

/-- Scenario: state after the uncommitted write of "a" through the first lazy map. -/
def lazyAfterSet : World := (SQLiteDict.setitem lazyOpen2.2 lazyOpen1.1 "a" "moo").2

/-- Scenario: one acquire of the file "f" on an empty process state. -/
def refOnce : Nat × World := SQLiteDict.get_connection World.empty "f"

/-- The connection object the acquire of "f" creates. -/
def fConn : Conn :=
  { filename := "f", live := [], durable := [], closed := false, log := [] }

/-- Scenario: state after releasing the only reference to "f" (count back at 0,
connection committed and closed, cache entry removed). -/
def refZero : World := (SQLiteDict.drop_connection refOnce.2 "f").getD World.empty

/-- Scenario: first of two eager maps on the file "two.sdb". -/
def sibOpen1 : SQLiteDict × World := SQLiteDict.init World.empty "two.sdb" "shelf" false

/-- Scenario: the sibling eager map on "two.sdb". -/
def sibOpen2 : SQLiteDict × World := SQLiteDict.init sibOpen1.2 "two.sdb" "othertable" false

/-- Scenario: state after writing "k" through the sibling map. -/
def sibAfterSet : World := (SQLiteDict.setitem sibOpen2.2 sibOpen2.1 "k" "v").2

/-- Scenario: the first sibling map after its close(), with the post-state. -/
def sibClosed1 : SQLiteDict × World :=
  (SQLiteDict.close sibAfterSet sibOpen1.1).getD (sibOpen1.1, sibAfterSet)

/-- Scenario: a single eager map on the in-memory sentinel. -/
def kvOpen : SQLiteDict × World := SQLiteDict.init World.empty ":memory:" "shelf" false

/-- The connection object `kvOpen` creates, written out. -/
def kvConn : Conn :=
  { filename := ":memory:", live := [("shelf", [])], durable := [("shelf", [])],
    closed := false, log := [.createTable "shelf", .createIndex "shelf"] }

/-- Scenario: lazy map A on the file "sync.sdb". -/
def synOpenA : SQLiteDict × World := SQLiteDict.init World.empty "sync.sdb" "ta" true

/-- Scenario: lazy map B on the same file, second table. -/
def synOpenB : SQLiteDict × World := SQLiteDict.init synOpenA.2 "sync.sdb" "tb" true

/-- The shared connection after both lazy opens of "sync.sdb", written out. -/
def synConn : Conn :=
  { filename := "sync.sdb", live := [("ta", []), ("tb", [])], durable := [],
    closed := false,
    log := [.createTable "ta", .createIndex "ta", .createTable "tb", .createIndex "tb"] }

/-- Scenario: a single lazy map on the file "one.sdb" (reference count 1). -/
def oneOpen : SQLiteDict × World := SQLiteDict.init World.empty "one.sdb" "shelf" true

/-- The connection object `oneOpen` creates, written out. -/
def oneConn : Conn :=
  { filename := "one.sdb", live := [("shelf", [])], durable := [],
    closed := false, log := [.createTable "shelf", .createIndex "shelf"] }

/-- A map on which close() has already run (its conn is gone). -/
def closedMap : SQLiteDict :=
  { filename := "x.sdb", table := "shelf", lazy := false, conn := none }

/-- Scenario: the world after closing the lazy writer while its sibling is open. -/
def lazyClosed : World :=
  ((SQLiteDict.close lazyAfterSet lazyOpen1.1).getD (lazyOpen1.1, lazyAfterSet)).2

/-- The shared connection of "test.sdb" after that close, written out by lookup. -/
def lazyConn : Conn := (lazyClosed.getConn 0).getD fConn

/-- Scenario: the in-memory map after eagerly setting "b", "a", "c". -/
def kvLoaded : World :=
  (SQLiteDict.setitem (SQLiteDict.setitem (SQLiteDict.setitem kvOpen.2 kvOpen.1 "b" "1").2
      kvOpen.1 "a" "2").2 kvOpen.1 "c" "3").2

/-- The connection behind `kvLoaded`, written out. -/
def kvLoadedConn : Conn :=
  { filename := ":memory:",
    live := [("shelf", [("b", "1"), ("a", "2"), ("c", "3")])],
    durable := [("shelf", [("b", "1"), ("a", "2"), ("c", "3")])],
    closed := false,
    log := [.createTable "shelf", .createIndex "shelf", .replaceInto "shelf" "b" "1",
            .replaceInto "shelf" "a" "2", .replaceInto "shelf" "c" "3"] }

theorem lookupStr_updateStr_self {α : Type} (l : List (String × α)) (k : String) (v : α) :
    lookupStr (updateStr l k v) k = some v := by
  induction l with
  | nil => simp [updateStr, lookupStr]
  | cons p rest ih =>
    by_cases h : p.1 = k
    · simp [updateStr, h, lookupStr]
    · simp [updateStr, h, lookupStr, ih]

theorem lookupStr_removeStr_self {α : Type} (l : List (String × α)) (k : String) :
    lookupStr (removeStr l k) k = none := by
  induction l with
  | nil => rfl
  | cons p rest ih =>
    by_cases h : p.1 = k
    · simp [removeStr, h, ih]
    · simp [removeStr, h, lookupStr, ih]

theorem lookupStr_append {α : Type} (l1 l2 : List (String × α)) (k : String) :
    lookupStr (l1 ++ l2) k = ((lookupStr l1 k).or (lookupStr l2 k)) := by
  induction l1 with
  | nil => simp [lookupStr]
  | cons p rest ih =>
    by_cases h : p.1 = k
    · simp [lookupStr, h]
    · simp [lookupStr, h, ih]

theorem updateStr_updateStr {α : Type} (l : List (String × α)) (k : String) (v v2 : α) :
    updateStr (updateStr l k v) k v2 = updateStr l k v2 := by
  induction l with
  | nil => simp [updateStr]
  | cons p rest ih =>
    by_cases h : p.1 = k
    · simp [updateStr, h]
    · simp [updateStr, h, ih]

theorem selectValue_replaceInto_self (t : Table) (k v : String) :
    Table.selectValue (Table.replaceInto t k v) k = some v := by
  unfold Table.selectValue Table.replaceInto
  rw [lookupStr_append, lookupStr_removeStr_self]
  simp [lookupStr]

theorem charsLe_total : ∀ as bs : List Char, charsLe as bs = true ∨ charsLe bs as = true := by
  intro as
  induction as with
  | nil => intro bs; left; rfl
  | cons a as ih =>
    intro bs
    cases bs with
    | nil => right; rfl
    | cons b bs =>
      simp only [charsLe]
      rcases Nat.lt_trichotomy a.toNat b.toNat with h | h | h
      · left; simp [h]
      · have h1 : ¬ a.toNat < b.toNat := by omega
        have h2 : ¬ b.toNat < a.toNat := by omega
        simpa [h1, h2] using ih bs
      · right; simp [h]

theorem charsLe_trans : ∀ as bs cs : List Char,
    charsLe as bs = true → charsLe bs cs = true → charsLe as cs = true := by
  intro as
  induction as with
  | nil => intro bs cs h1 h2; rfl
  | cons a as ih =>
    intro bs cs h1 h2
    cases bs with
    | nil => simp [charsLe] at h1
    | cons b bs =>
      cases cs with
      | nil => simp [charsLe] at h2
      | cons c cs =>
        simp only [charsLe] at h1 h2 ⊢
        by_cases hab : a.toNat < b.toNat
        · by_cases hbc : b.toNat < c.toNat
          · simp [show a.toNat < c.toNat by omega]
          · rw [if_neg hbc] at h2
            by_cases hcb : c.toNat < b.toNat
            · rw [if_pos hcb] at h2; exact absurd h2 (by simp)
            · simp [show a.toNat < c.toNat by omega]
        · rw [if_neg hab] at h1
          by_cases hba : b.toNat < a.toNat
          · rw [if_pos hba] at h1; exact absurd h1 (by simp)
          · rw [if_neg hba] at h1
            by_cases hbc : b.toNat < c.toNat
            · simp [show a.toNat < c.toNat by omega]
            · rw [if_neg hbc] at h2
              by_cases hcb : c.toNat < b.toNat
              · rw [if_pos hcb] at h2; exact absurd h2 (by simp)
              · rw [if_neg hcb] at h2
                have hac : ¬ a.toNat < c.toNat := by omega
                have hca : ¬ c.toNat < a.toNat := by omega
                simp only [if_neg hac, if_neg hca]
                exact ih bs cs h1 h2

theorem keyLe_total (a b : String) : keyLe a b ∨ keyLe b a :=
  charsLe_total a.data b.data

theorem keyLe_trans {a b c : String} (h1 : keyLe a b) (h2 : keyLe b c) : keyLe a c :=
  charsLe_trans a.data b.data c.data h1 h2

theorem perm_insertKey (x : String) (l : List String) : List.Perm (insertKey x l) (x :: l) := by
  induction l with
  | nil => simp [insertKey]
  | cons y rest ih =>
    by_cases h : strLeb x y
    · simp [insertKey, h]
    · rw [insertKey, if_neg h]
      exact (List.Perm.cons y ih).trans (List.Perm.swap x y rest)

theorem perm_sortKeys (l : List String) : List.Perm (sortKeys l) l := by
  induction l with
  | nil => simp [sortKeys]
  | cons x rest ih =>
    exact (perm_insertKey x (sortKeys rest)).trans (List.Perm.cons x ih)

theorem sorted_insertKey {x : String} {l : List String} (h : List.Sorted keyLe l) :
    List.Sorted keyLe (insertKey x l) := by
  induction l with
  | nil => simp [insertKey]
  | cons y rest ih =>
    rw [List.sorted_cons] at h
    by_cases hxy : strLeb x y
    · rw [insertKey, if_pos hxy, List.sorted_cons]
      constructor
      · intro b hb
        rcases List.mem_cons.mp hb with rfl | hb
        · exact hxy
        · exact keyLe_trans hxy (h.1 b hb)
      · rw [List.sorted_cons]; exact h
    · rw [insertKey, if_neg hxy, List.sorted_cons]
      constructor
      · intro b hb
        rcases List.mem_cons.mp ((perm_insertKey x rest).mem_iff.mp hb) with hbx | hb
        · rw [hbx]
          rcases keyLe_total x y with hk | hk
          · exact absurd hk hxy
          · exact hk
        · exact h.1 b hb
      · exact ih h.2

theorem sorted_sortKeys (l : List String) : List.Sorted keyLe (sortKeys l) := by
  induction l with
  | nil => simp [sortKeys]
  | cons x rest ih => exact sorted_insertKey ih

theorem getConn_lt {w : World} {cid : Nat} {c : Conn} (h : w.getConn cid = some c) :
    cid < w.conns.length := by
  unfold World.getConn at h
  obtain ⟨hlt, _⟩ := List.getElem?_eq_some.mp h
  exact hlt

theorem getConn_setConn_self {w : World} {cid : Nat} (c : Conn) (h : cid < w.conns.length) :
    (w.setConn cid c).getConn cid = some c := by
  unfold World.getConn World.setConn
  simp [List.getElem?_set, h]

theorem commit_getConn {w : World} {cid : Nat} {c : Conn} (h : w.getConn cid = some c) :
    (w.commit cid).getConn cid = some { c with durable := c.live } := by
  unfold World.commit
  rw [h]
  by_cases hf : c.filename = ":memory:"
  · simp only [hf, if_pos]
    exact getConn_setConn_self _ (getConn_lt h)
  · simp only [hf, if_neg, ite_false]
    exact getConn_setConn_self _ (getConn_lt h)

theorem commit_cache (w : World) (cid : Nat) : (w.commit cid).cache = w.cache := by
  unfold World.commit
  cases h : w.getConn cid
  · rfl
  · dsimp only
    split <;> rfl

theorem commit_refs (w : World) (cid : Nat) : (w.commit cid).refs = w.refs := by
  unfold World.commit
  cases h : w.getConn cid
  · rfl
  · dsimp only
    split <;> rfl

theorem sync_cache (w : World) (d : SQLiteDict) : ((SQLiteDict.sync w d).2).cache = w.cache := by
  unfold SQLiteDict.sync
  cases d.conn
  · rfl
  · dsimp only
    cases h : w.getConn _
    · rfl
    · dsimp only
      split
      · rfl
      · exact commit_cache w _

theorem sync_refs (w : World) (d : SQLiteDict) : ((SQLiteDict.sync w d).2).refs = w.refs := by
  unfold SQLiteDict.sync
  cases d.conn
  · rfl
  · dsimp only
    cases h : w.getConn _
    · rfl
    · dsimp only
      split
      · rfl
      · exact commit_refs w _

theorem maybe_sync_cache (w : World) (d : SQLiteDict) :
    ((SQLiteDict.maybe_sync w d).2).cache = w.cache := by
  unfold SQLiteDict.maybe_sync
  split
  · rfl
  · exact sync_cache w d

theorem maybe_sync_refs (w : World) (d : SQLiteDict) :
    ((SQLiteDict.maybe_sync w d).2).refs = w.refs := by
  unfold SQLiteDict.maybe_sync
  split
  · rfl
  · exact sync_refs w d

theorem init_fst (w : World) (f t : String) (l : Bool) :
    (SQLiteDict.init w f t l).1 =
      { filename := f, table := t, lazy := l, conn := some (SQLiteDict.get_connection w f).1 } :=
  rfl

theorem init_snd_cache (w : World) (f t : String) (l : Bool) :
    ((SQLiteDict.init w f t l).2).cache = ((SQLiteDict.get_connection w f).2).cache := by
  unfold SQLiteDict.init
  dsimp only
  rw [maybe_sync_cache]
  cases h : ((SQLiteDict.get_connection w f).2).getConn (SQLiteDict.get_connection w f).1
  · rfl
  · rfl

theorem init_snd_refs (w : World) (f t : String) (l : Bool) :
    ((SQLiteDict.init w f t l).2).refs = ((SQLiteDict.get_connection w f).2).refs := by
  unfold SQLiteDict.init
  dsimp only
  rw [maybe_sync_refs]
  cases h : ((SQLiteDict.get_connection w f).2).getConn (SQLiteDict.get_connection w f).1
  · rfl
  · rfl

theorem get_connection_hit {w : World} {f : String} {cid : Nat} {n : Int}
    (hc : lookupStr w.cache f = some cid) (hr : lookupStr w.refs f = some n) :
    SQLiteDict.get_connection w f = (cid, { w with refs := updateStr w.refs f (n + 1) }) := by
  unfold SQLiteDict.get_connection
  simp [hc, hr]

theorem get_connection_miss {w : World} {f : String} (hc : lookupStr w.cache f = none) :
    SQLiteDict.get_connection w f =
      (w.conns.length,
       { w with
         conns := w.conns ++
           [{ filename := f,
              live := if f = ":memory:" then [] else (lookupStr w.disk f).getD [],
              durable := if f = ":memory:" then [] else (lookupStr w.disk f).getD [],
              closed := false, log := [] }],
         cache := updateStr w.cache f w.conns.length,
         refs := updateStr w.refs f 1 }) := by
  unfold SQLiteDict.get_connection
  simp [hc, lookupStr_updateStr_self, updateStr_updateStr]

theorem drop_connection_pos {w : World} {f : String} {n : Int}
    (hr : lookupStr w.refs f = some n) (h1 : ¬ n - 1 = 0) :
    SQLiteDict.drop_connection w f = some { w with refs := updateStr w.refs f (n - 1) } := by
  unfold SQLiteDict.drop_connection
  rw [hr]
  simp [h1]

theorem commit_eq {w : World} {cid : Nat} {c : Conn} (h : w.getConn cid = some c) :
    w.commit cid =
      { w with conns := w.conns.set cid { c with durable := c.live },
               disk := if c.filename = ":memory:" then w.disk
                       else updateStr w.disk c.filename c.live } := by
  unfold World.commit
  rw [h]
  dsimp only [World.setConn]
  by_cases hf : c.filename = ":memory:"
  · rw [if_pos hf, if_pos hf]
  · rw [if_neg hf, if_neg hf]

theorem drop_connection_last {w : World} {f : String} {cid : Nat} {c : Conn}
    (hr : lookupStr w.refs f = some 1) (hc : lookupStr w.cache f = some cid)
    (hg : w.getConn cid = some c) :
    SQLiteDict.drop_connection w f = some
      { conns := w.conns.set cid { c with durable := c.live, closed := true },
        cache := removeStr w.cache f,
        refs := updateStr w.refs f 0,
        disk := if c.filename = ":memory:" then w.disk
                else updateStr w.disk c.filename c.live } := by
  unfold SQLiteDict.drop_connection
  rw [hr]
  dsimp only
  rw [if_pos (by decide : ((1:Int) - 1 = 0))]
  rw [show ((1:Int) - 1) = 0 from by decide]
  rw [show lookupStr ({ w with refs := updateStr w.refs f 0 } : World).cache f = some cid from hc]
  dsimp only
  rw [commit_eq (show ({ w with refs := updateStr w.refs f 0 } : World).getConn cid = some c from hg)]
  have hlt : cid < w.conns.length := getConn_lt hg
  simp only [World.getConn, World.setConn, List.getElem?_set, hlt, if_pos rfl, ite_true,
    List.set_set]

theorem getitem_spec {w : World} {d : SQLiteDict} {cid : Nat} {c : Conn} {t : Table} (k : String)
    (hA : d.conn = some cid) (hg : w.getConn cid = some c) (hcl : c.closed = false)
    (ht : lookupStr c.live d.table = some t) :
    SQLiteDict.getitem w d k =
      ((match Table.selectValue t k with
        | none => .error (.keyError k)
        | some v => .ok v),
       w.setConn cid { c with log := c.log ++ [.selectValue d.table k] }) := by
  unfold SQLiteDict.getitem
  rw [hA]
  dsimp only
  rw [hg]
  dsimp only
  rw [hcl]
  simp only [Bool.false_eq_true, if_false]
  rw [ht]
  dsimp only
  cases Table.selectValue t k <;> rfl

theorem maybe_sync_spec {w : World} {d : SQLiteDict} {cid : Nat} {c : Conn}
    (hA : d.conn = some cid) (hg : w.getConn cid = some c) (hcl : c.closed = false) :
    SQLiteDict.maybe_sync w d = (.ok (), if d.lazy then w else w.commit cid) := by
  unfold SQLiteDict.maybe_sync SQLiteDict.sync
  cases hl : d.lazy
  · simp only [Bool.false_eq_true, if_false]
    rw [hA]
    dsimp only
    rw [hg]
    dsimp only
    rw [hcl]
    simp only [Bool.false_eq_true, if_false]
  · simp only [if_true, ite_true]

theorem setitem_spec {w : World} {d : SQLiteDict} {cid : Nat} {c : Conn} {t : Table} (k v : String)
    (hA : d.conn = some cid) (hg : w.getConn cid = some c) (hcl : c.closed = false)
    (ht : lookupStr c.live d.table = some t) :
    SQLiteDict.setitem w d k v =
      SQLiteDict.maybe_sync
        (w.setConn cid { c with live := updateStr c.live d.table (t.replaceInto k v),
                                log := c.log ++ [.replaceInto d.table k v] }) d := by
  unfold SQLiteDict.setitem
  rw [hA]
  dsimp only
  rw [hg]
  dsimp only
  rw [hcl]
  simp only [Bool.false_eq_true, if_false]
  rw [ht]

theorem keys_spec {w : World} {d : SQLiteDict} {cid : Nat} {c : Conn} {t : Table}
    (hA : d.conn = some cid) (hg : w.getConn cid = some c) (hcl : c.closed = false)
    (ht : lookupStr c.live d.table = some t) :
    SQLiteDict.keys w d =
      (.ok (sortKeys (t.map Prod.fst)),
       w.setConn cid { c with log := c.log ++ [.selectKeys d.table] }) := by
  unfold SQLiteDict.keys
  rw [hA]
  dsimp only
  rw [hg]
  dsimp only
  rw [hcl]
  simp only [Bool.false_eq_true, if_false]
  rw [ht]

/-- C1 counterexample: two Logical Maps opened on the in-memory sentinel
receive the very same connection (index 0), and the key "a" written through
the first is reported present, with its value, by get and contains on the
second — the independence the claim predicts fails. -/
theorem memory_sentinel_shared_counterexample :
    memOpen1.1.conn = some 0 ∧ memOpen2.1.conn = some 0 ∧
    (SQLiteDict.setitem memOpen2.2 memOpen1.1 "a" "moo").1 = .ok () ∧
    (SQLiteDict.getitem memAfterSet memOpen2.1 "a").1 = .ok "moo" ∧
    (SQLiteDict.contains memAfterSet memOpen2.1 "a").1 = .ok true :=
  ⟨rfl, rfl, rfl, rfl, rfl⟩

/-- C1 (amended): opening on the in-memory sentinel does not construct a
fresh, unshared handle; ':memory:' is cached and reference-counted like any
other identity, so a second Logical Map opened on the sentinel receives the
same shared connection as the first, and writes through one are visible
through the other when they use the same table. -/
theorem memory_sentinel_shared (w : World) (t1 t2 : String) (l1 l2 : Bool)
    (h : lookupStr w.cache ":memory:" = none) :
    (SQLiteDict.init (SQLiteDict.init w ":memory:" t1 l1).2 ":memory:" t2 l2).1.conn
      = (SQLiteDict.init w ":memory:" t1 l1).1.conn := by
  have hmiss := get_connection_miss h
  have hc2 : lookupStr ((SQLiteDict.init w ":memory:" t1 l1).2).cache ":memory:"
      = some w.conns.length := by
    rw [init_snd_cache, hmiss]
    exact lookupStr_updateStr_self _ _ _
  have hr2 : lookupStr ((SQLiteDict.init w ":memory:" t1 l1).2).refs ":memory:"
      = some 1 := by
    rw [init_snd_refs, hmiss]
    exact lookupStr_updateStr_self _ _ _
  have hhit := get_connection_hit hc2 hr2
  rw [init_fst, init_fst, hhit, hmiss]

/-- C1 amended, at a concrete state: the second sentinel open on the empty
process state returns the first open's connection. -/
theorem memory_sentinel_shared_witness :
    (SQLiteDict.init (SQLiteDict.init World.empty ":memory:" "shelf" false).2
        ":memory:" "shelf" false).1.conn
      = (SQLiteDict.init World.empty ":memory:" "shelf" false).1.conn :=
  memory_sentinel_shared World.empty "shelf" "shelf" false false rfl

/-- C2 counterexample: with a sibling lazy map still open on "test.sdb",
close() on the lazy map that wrote "a" commits nothing: it succeeds, marks
the map closed and leaves the sibling's reference, but the connection's
committed database still lacks the table's row and nothing reached disk,
even though the pending database holds ("a", "moo"). -/
theorem close_without_commit_counterexample :
    SQLiteDict.close lazyAfterSet lazyOpen1.1
      = some ({ lazyOpen1.1 with conn := none }, lazyClosed) ∧
    lookupStr lazyClosed.refs "test.sdb" = some 1 ∧
    lazyClosed.getConn 0 = some lazyConn ∧
    lookupStr lazyConn.durable "shelf" = none ∧
    lookupStr lazyClosed.disk "test.sdb" = none ∧
    lookupStr lazyConn.live "shelf" = some [("a", "moo")] :=
  ⟨rfl, rfl, rfl, rfl, rfl, rfl⟩

/-- C2 (amended): close() on a not-yet-closed map releases one Registry
reference for its identity and marks the map closed; the shared
connection's pending work is committed only when that release brings the
reference count to zero.  While sibling maps still hold references, the
world is unchanged apart from the decremented count — in particular a lazy
map's uncommitted mutations stay uncommitted. -/
theorem close_releases_reference :
    (∀ (w : World) (d : SQLiteDict) (cid : Nat) (n : Int),
       d.conn = some cid → lookupStr w.refs d.filename = some n → ¬ n - 1 = 0 →
       SQLiteDict.close w d =
         some ({ d with conn := none },
               { w with refs := updateStr w.refs d.filename (n - 1) }))
  ∧ (∀ (w : World) (d : SQLiteDict) (cid cid2 : Nat) (c : Conn),
       d.conn = some cid → lookupStr w.refs d.filename = some 1 →
       lookupStr w.cache d.filename = some cid2 → w.getConn cid2 = some c →
       SQLiteDict.close w d =
         some ({ d with conn := none },
               { conns := w.conns.set cid2 { c with durable := c.live, closed := true },
                 cache := removeStr w.cache d.filename,
                 refs := updateStr w.refs d.filename 0,
                 disk := if c.filename = ":memory:" then w.disk
                         else updateStr w.disk c.filename c.live })) := by
  constructor
  · intro w d cid n hconn hr h1
    unfold SQLiteDict.close
    rw [hconn]
    dsimp only
    rw [drop_connection_pos hr h1]
  · intro w d cid cid2 c hconn hr hc hg
    unfold SQLiteDict.close
    rw [hconn]
    dsimp only
    rw [drop_connection_last hr hc hg]

/-- C2 amended, at concrete states: closing the lazy writer while its
sibling holds a reference only decrements the count, and closing the last
map on "one.sdb" commits and closes the connection and removes the cache
entry. -/
theorem close_releases_reference_witness :
    (SQLiteDict.close lazyAfterSet lazyOpen1.1 =
       some ({ lazyOpen1.1 with conn := none },
             { lazyAfterSet with refs := updateStr lazyAfterSet.refs "test.sdb" (2 - 1) }))
  ∧ (SQLiteDict.close oneOpen.2 oneOpen.1 =
       some ({ oneOpen.1 with conn := none },
             { conns :=
                 oneOpen.2.conns.set 0 { oneConn with durable := oneConn.live, closed := true },
               cache := removeStr oneOpen.2.cache "one.sdb",
               refs := updateStr oneOpen.2.refs "one.sdb" 0,
               disk := if oneConn.filename = ":memory:" then oneOpen.2.disk
                       else updateStr oneOpen.2.disk oneConn.filename oneConn.live })) :=
  ⟨close_releases_reference.1 lazyAfterSet lazyOpen1.1 0 2 rfl rfl (by decide),
   close_releases_reference.2 oneOpen.2 oneOpen.1 0 0 oneConn rfl rfl rfl rfl⟩

/-- C3: when Logical Maps A and B share one connection and A is lazy, a
mutation through A followed by sync() on B commits the entire shared
connection's pending transaction: afterwards the connection's committed
database equals its pending one — A's table carries the replaced row —
and looking the key up in that table yields the written value. -/
theorem sibling_sync_commits_lazy_write (w : World) (A B : SQLiteDict) (k v : String)
    (cid : Nat) (c : Conn) (t : Table)
    (hA : A.conn = some cid) (hB : B.conn = some cid) (hlazy : A.lazy = true)
    (hg : w.getConn cid = some c) (hcl : c.closed = false)
    (ht : lookupStr c.live A.table = some t) :
    (SQLiteDict.setitem w A k v).1 = .ok () ∧
    (SQLiteDict.sync (SQLiteDict.setitem w A k v).2 B).1 = .ok () ∧
    (SQLiteDict.sync (SQLiteDict.setitem w A k v).2 B).2.getConn cid
      = some { c with live := updateStr c.live A.table (t.replaceInto k v), durable := updateStr c.live A.table (t.replaceInto k v), log := c.log ++ [.replaceInto A.table k v] } ∧
    lookupStr (updateStr c.live A.table (t.replaceInto k v)) A.table = some (t.replaceInto k v) ∧
    Table.selectValue (t.replaceInto k v) k = some v := by
  have hlt := getConn_lt hg
  have hset := setitem_spec k v hA hg hcl ht
  have hg1 : ((w.setConn cid { c with live := updateStr c.live A.table (t.replaceInto k v), log := c.log ++ [.replaceInto A.table k v] }).getConn cid) = some { c with live := updateStr c.live A.table (t.replaceInto k v), log := c.log ++ [.replaceInto A.table k v] } :=
    getConn_setConn_self _ hlt
  have hms : SQLiteDict.maybe_sync (w.setConn cid { c with live := updateStr c.live A.table (t.replaceInto k v), log := c.log ++ [.replaceInto A.table k v] }) A = (.ok (), w.setConn cid { c with live := updateStr c.live A.table (t.replaceInto k v), log := c.log ++ [.replaceInto A.table k v] }) := by
    unfold SQLiteDict.maybe_sync
    rw [if_pos hlazy]
  rw [hset, hms]
  dsimp only
  have hsync : SQLiteDict.sync (w.setConn cid { c with live := updateStr c.live A.table (t.replaceInto k v), log := c.log ++ [.replaceInto A.table k v] }) B = (.ok (), (w.setConn cid { c with live := updateStr c.live A.table (t.replaceInto k v), log := c.log ++ [.replaceInto A.table k v] }).commit cid) := by
    unfold SQLiteDict.sync
    rw [hB]
    dsimp only
    rw [hg1]
    dsimp only
    rw [hcl]
    simp only [Bool.false_eq_true, if_false]
  rw [hsync]
  dsimp only
  exact ⟨rfl, rfl, commit_getConn hg1, lookupStr_updateStr_self _ _ _,
    selectValue_replaceInto_self _ _ _⟩

/-- C3, at a concrete state: lazy maps on "sync.sdb"; the write through A
becomes committed once B syncs. -/
theorem sibling_sync_commits_lazy_write_witness :
    (SQLiteDict.setitem synOpenB.2 synOpenA.1 "k" "v").1 = .ok () ∧
    (SQLiteDict.sync (SQLiteDict.setitem synOpenB.2 synOpenA.1 "k" "v").2 synOpenB.1).1
      = .ok () ∧
    (SQLiteDict.sync (SQLiteDict.setitem synOpenB.2 synOpenA.1 "k" "v").2 synOpenB.1).2.getConn 0
      = some { synConn with live := updateStr synConn.live "ta" (Table.replaceInto [] "k" "v"), durable := updateStr synConn.live "ta" (Table.replaceInto [] "k" "v"), log := synConn.log ++ [.replaceInto "ta" "k" "v"] } ∧
    lookupStr (updateStr synConn.live "ta" (Table.replaceInto [] "k" "v")) "ta"
      = some (Table.replaceInto [] "k" "v") ∧
    Table.selectValue (Table.replaceInto [] "k" "v") "k" = some "v" :=
  sibling_sync_commits_lazy_write synOpenB.2 synOpenA.1 synOpenB.1 "k" "v" 0 synConn []
    rfl rfl rfl rfl rfl rfl

/-- C4: the Registry keeps at most one shared handle per identity.  An
acquire that finds a cached entry returns exactly the cached connection
index and only bumps the reference count by one (no new connection); an
acquire that finds none appends one fresh connection and records it with
count 1; a release that brings the count to zero commits the connection,
closes it, and deletes the cache entry (its lookup afterwards is `none`),
so the next acquire takes the construct-fresh path. -/
theorem registry_single_handle :
    (∀ (w : World) (f : String) (cid : Nat) (n : Int),
       lookupStr w.cache f = some cid → lookupStr w.refs f = some n →
       SQLiteDict.get_connection w f = (cid, { w with refs := updateStr w.refs f (n + 1) }))
  ∧ (∀ (w : World) (f : String), lookupStr w.cache f = none →
       SQLiteDict.get_connection w f =
         (w.conns.length,
          { w with
            conns := w.conns ++
              [{ filename := f,
                 live := if f = ":memory:" then [] else (lookupStr w.disk f).getD [],
                 durable := if f = ":memory:" then [] else (lookupStr w.disk f).getD [],
                 closed := false, log := [] }],
            cache := updateStr w.cache f w.conns.length,
            refs := updateStr w.refs f 1 }))
  ∧ (∀ (w : World) (f : String) (cid : Nat) (c : Conn),
       lookupStr w.refs f = some 1 → lookupStr w.cache f = some cid →
       w.getConn cid = some c →
       SQLiteDict.drop_connection w f = some
         { conns := w.conns.set cid { c with durable := c.live, closed := true },
           cache := removeStr w.cache f,
           refs := updateStr w.refs f 0,
           disk := if c.filename = ":memory:" then w.disk
                   else updateStr w.disk c.filename c.live } ∧
       lookupStr (removeStr w.cache f) f = none) :=
  ⟨fun _ _ _ _ hc hr => get_connection_hit hc hr,
   fun _ _ hc => get_connection_miss hc,
   fun w f _ _ hr hc hg =>
     ⟨drop_connection_last hr hc hg, lookupStr_removeStr_self w.cache f⟩⟩

/-- C4, at concrete states: re-acquiring "f" while its one reference is
outstanding returns connection 0 and bumps the count to 2; acquiring the
never-seen "g" on the empty state constructs connection 0 fresh with count
1; releasing the last reference to "f" commits and closes connection 0 and
removes the cache entry. -/
theorem registry_single_handle_witness :
    (SQLiteDict.get_connection refOnce.2 "f"
       = (0, { refOnce.2 with refs := updateStr refOnce.2.refs "f" (1 + 1) }))
  ∧ (SQLiteDict.get_connection World.empty "g"
       = (World.empty.conns.length,
          { World.empty with
            conns := World.empty.conns ++
              [{ filename := "g",
                 live := if "g" = ":memory:" then [] else (lookupStr World.empty.disk "g").getD [],
                 durable := if "g" = ":memory:" then [] else (lookupStr World.empty.disk "g").getD [],
                 closed := false, log := [] }],
            cache := updateStr World.empty.cache "g" World.empty.conns.length,
            refs := updateStr World.empty.refs "g" 1 }))
  ∧ (SQLiteDict.drop_connection refOnce.2 "f" = some
       { conns := refOnce.2.conns.set 0 { fConn with durable := fConn.live, closed := true },
         cache := removeStr refOnce.2.cache "f",
         refs := updateStr refOnce.2.refs "f" 0,
         disk := if fConn.filename = ":memory:" then refOnce.2.disk
                 else updateStr refOnce.2.disk fConn.filename fConn.live } ∧
     lookupStr (removeStr refOnce.2.cache "f") "f" = none) :=
  ⟨registry_single_handle.1 refOnce.2 "f" 0 1 rfl rfl,
   registry_single_handle.2.1 World.empty "g" rfl,
   registry_single_handle.2.2 refOnce.2 "f" 0 fConn rfl rfl rfl⟩

/-- C5 counterexample: acquire "f" once, release it (count back to 0, the
connection is committed, closed and uncached — but the count entry stays).
A second release is not rejected as a fatal error: it silently succeeds,
leaving the reference count at -1 and touching nothing else. -/
theorem release_underflow_counterexample :
    SQLiteDict.drop_connection refOnce.2 "f" = some refZero ∧
    lookupStr refZero.refs "f" = some 0 ∧
    lookupStr refZero.cache "f" = none ∧
    SQLiteDict.drop_connection refZero "f"
      = some { refZero with refs := updateStr refZero.refs "f" (-1) } ∧
    lookupStr (updateStr refZero.refs "f" (-1)) "f" = some (-1) :=
  ⟨rfl, rfl, rfl, rfl, rfl⟩

/-- C5 (amended): reference-count underflow is not guarded against.  A
release for an identity whose count entry stands at 0 silently decrements
it to -1 and changes nothing else; only a release for an identity that was
never acquired at all raises (KeyError, the `none` result). -/
theorem release_underflow_tolerated :
    (∀ (w : World) (f : String), lookupStr w.refs f = none →
       SQLiteDict.drop_connection w f = none)
  ∧ (∀ (w : World) (f : String), lookupStr w.refs f = some 0 →
       SQLiteDict.drop_connection w f =
         some { w with refs := updateStr w.refs f (-1) }) := by
  constructor
  · intro w f h
    unfold SQLiteDict.drop_connection
    rw [h]
  · intro w f h
    exact drop_connection_pos h (by decide)

/-- C5 amended, at concrete states: releasing the never-acquired "g"
raises, while re-releasing "f" at count 0 silently yields -1. -/
theorem release_underflow_tolerated_witness :
    SQLiteDict.drop_connection World.empty "g" = none ∧
    SQLiteDict.drop_connection refZero "f"
      = some { refZero with refs := updateStr refZero.refs "f" (-1) } :=
  ⟨release_underflow_tolerated.1 World.empty "g" rfl,
   release_underflow_tolerated.2 refZero "f" rfl⟩

/-- C6: close() always leaves the map with no connection, and on such a map
every data operation — get, set, delete, contains, length, keys, sync —
deterministically raises `storageFailure` and leaves the world untouched
(no silent no-op); only close() itself is an idempotent no-op. -/
theorem closed_map_raises :
    (∀ (w : World) (d : SQLiteDict) (p : SQLiteDict × World),
       SQLiteDict.close w d = some p → p.1.conn = none)
  ∧ (∀ (w : World) (d : SQLiteDict) (k v : String), d.conn = none →
       SQLiteDict.getitem w d k = (.error .storageFailure, w) ∧
       SQLiteDict.setitem w d k v = (.error .storageFailure, w) ∧
       SQLiteDict.delitem w d k = (.error .storageFailure, w) ∧
       SQLiteDict.contains w d k = (.error .storageFailure, w) ∧
       SQLiteDict.len w d = (.error .storageFailure, w) ∧
       SQLiteDict.keys w d = (.error .storageFailure, w) ∧
       SQLiteDict.sync w d = (.error .storageFailure, w) ∧
       SQLiteDict.close w d = some (d, w)) := by
  constructor
  · intro w d p h
    unfold SQLiteDict.close at h
    cases hdc : d.conn with
    | none =>
      rw [hdc] at h
      dsimp only at h
      cases h
      rw [← hdc]
    | some cid =>
      rw [hdc] at h
      dsimp only at h
      cases hdrop : SQLiteDict.drop_connection w d.filename with
      | none => rw [hdrop] at h; cases h
      | some w1 => rw [hdrop] at h; cases h; rfl
  · intro w d k v h
    have hget : SQLiteDict.getitem w d k = (.error .storageFailure, w) := by
      unfold SQLiteDict.getitem
      rw [h]
    have hcont : SQLiteDict.contains w d k = (.error .storageFailure, w) := by
      unfold SQLiteDict.contains
      rw [hget]
    refine ⟨hget, ?_, ?_, hcont, ?_, ?_, ?_, ?_⟩
    · unfold SQLiteDict.setitem
      rw [h]
    · unfold SQLiteDict.delitem
      rw [hcont]
    · unfold SQLiteDict.len
      rw [h]
    · unfold SQLiteDict.keys
      rw [h]
    · unfold SQLiteDict.sync
      rw [h]
    · unfold SQLiteDict.close
      rw [h]

/-- C6, at a concrete closed map: every operation on it raises
`storageFailure` with the state unchanged, close() is a no-op, and a close
result always carries a conn-less map. -/
theorem closed_map_raises_witness :
    (SQLiteDict.getitem World.empty closedMap "k" = (.error .storageFailure, World.empty) ∧
     SQLiteDict.setitem World.empty closedMap "k" "v" = (.error .storageFailure, World.empty) ∧
     SQLiteDict.delitem World.empty closedMap "k" = (.error .storageFailure, World.empty) ∧
     SQLiteDict.contains World.empty closedMap "k" = (.error .storageFailure, World.empty) ∧
     SQLiteDict.len World.empty closedMap = (.error .storageFailure, World.empty) ∧
     SQLiteDict.keys World.empty closedMap = (.error .storageFailure, World.empty) ∧
     SQLiteDict.sync World.empty closedMap = (.error .storageFailure, World.empty) ∧
     SQLiteDict.close World.empty closedMap = some (closedMap, World.empty)) ∧
    closedMap.conn = none :=
  ⟨closed_map_raises.2 World.empty closedMap "k" "v" rfl,
   closed_map_raises.1 World.empty closedMap (closedMap, World.empty) rfl⟩

/-- C7: a second close() on a map whose close() already succeeded is a
no-op — it raises nothing and returns the same map and world, so the
reference count is not decremented again.  Concretely, after closing the
first of two sibling maps on "two.sdb" twice, the shared connection still
carries the sibling's reference and the sibling still reads its data. -/
theorem close_twice_noop :
    (∀ (w : World) (d : SQLiteDict) (p : SQLiteDict × World),
       SQLiteDict.close w d = some p → SQLiteDict.close p.2 p.1 = some p)
  ∧ (SQLiteDict.close sibAfterSet sibOpen1.1 = some sibClosed1 ∧
     SQLiteDict.close sibClosed1.2 sibClosed1.1 = some sibClosed1 ∧
     lookupStr sibClosed1.2.refs "two.sdb" = some 1 ∧
     (SQLiteDict.getitem sibClosed1.2 sibOpen2.1 "k").1 = .ok "v" ∧
     (SQLiteDict.len sibClosed1.2 sibOpen2.1).1 = .ok 1) := by
  constructor
  · intro w d p h
    have hp : p.1.conn = none := by
      unfold SQLiteDict.close at h
      cases hdc : d.conn with
      | none =>
        rw [hdc] at h
        dsimp only at h
        cases h
        rw [← hdc]
      | some cid =>
        rw [hdc] at h
        dsimp only at h
        cases hdrop : SQLiteDict.drop_connection w d.filename with
        | none => rw [hdrop] at h; cases h
        | some w1 => rw [hdrop] at h; cases h; rfl
    unfold SQLiteDict.close
    rw [hp]
  · exact ⟨rfl, rfl, rfl, rfl, rfl⟩

/-- C7, applied at the concrete sibling scenario: the already-settled close
of the first map makes a further close a no-op. -/
theorem close_twice_noop_witness :
    SQLiteDict.close sibClosed1.2 sibClosed1.1 = some sibClosed1 :=
  close_twice_noop.1 sibAfterSet sibOpen1.1 sibClosed1 rfl

/-- C8: on a key absent from the table, get raises NotFound (KeyError), and
delete raises NotFound after performing the absence check as its own
SELECT: the connection afterwards shows exactly one extra logged lookup
statement and no DELETE, with the table contents unchanged. -/
theorem absent_key_raises (w : World) (d : SQLiteDict) (k : String)
    (cid : Nat) (c : Conn) (t : Table)
    (hA : d.conn = some cid) (hg : w.getConn cid = some c) (hcl : c.closed = false)
    (ht : lookupStr c.live d.table = some t) (habs : Table.selectValue t k = none) :
    (SQLiteDict.getitem w d k).1 = .error (.keyError k) ∧
    (SQLiteDict.delitem w d k).1 = .error (.keyError k) ∧
    (SQLiteDict.delitem w d k).2.getConn cid
      = some { c with log := c.log ++ [.selectValue d.table k] } := by
  have hget := getitem_spec k hA hg hcl ht
  rw [habs] at hget
  have hcont : SQLiteDict.contains w d k
      = (.ok false, w.setConn cid { c with log := c.log ++ [.selectValue d.table k] }) := by
    unfold SQLiteDict.contains
    rw [hget]
  have hdel : SQLiteDict.delitem w d k
      = (.error (.keyError k), w.setConn cid { c with log := c.log ++ [.selectValue d.table k] }) := by
    unfold SQLiteDict.delitem
    rw [hcont]
  refine ⟨by rw [hget], by rw [hdel], ?_⟩
  rw [hdel]
  exact getConn_setConn_self _ (getConn_lt hg)

/-- C8, at a concrete state: on the freshly opened in-memory map the key
"x" is absent; get and delete raise KeyError "x" and the failed delete
leaves the connection with just one extra SELECT logged. -/
theorem absent_key_raises_witness :
    (SQLiteDict.getitem kvOpen.2 kvOpen.1 "x").1 = .error (.keyError "x") ∧
    (SQLiteDict.delitem kvOpen.2 kvOpen.1 "x").1 = .error (.keyError "x") ∧
    (SQLiteDict.delitem kvOpen.2 kvOpen.1 "x").2.getConn 0
      = some { kvConn with log := kvConn.log ++ [.selectValue "shelf" "x"] } :=
  absent_key_raises kvOpen.2 kvOpen.1 "x" 0 kvConn [] rfl rfl rfl rfl rfl

/-- C9: set(k, v) replaces any existing row with key k (REPLACE INTO) — the
table afterwards is exactly the replace-result — and immediately
afterwards get(k) returns v and contains(k) returns true, in eager and
lazy mode alike. -/
theorem set_then_get (w : World) (d : SQLiteDict) (k v : String)
    (cid : Nat) (c : Conn) (t : Table)
    (hA : d.conn = some cid) (hg : w.getConn cid = some c) (hcl : c.closed = false)
    (ht : lookupStr c.live d.table = some t) :
    (SQLiteDict.setitem w d k v).1 = .ok () ∧
    lookupStr (((SQLiteDict.setitem w d k v).2.getConn cid).getD fConn).live d.table
      = some (t.replaceInto k v) ∧
    (SQLiteDict.getitem (SQLiteDict.setitem w d k v).2 d k).1 = .ok v ∧
    (SQLiteDict.contains (SQLiteDict.setitem w d k v).2 d k).1 = .ok true := by
  have hlt := getConn_lt hg
  have hset := setitem_spec k v hA hg hcl ht
  have hg1 : ((w.setConn cid { c with live := updateStr c.live d.table (t.replaceInto k v), log := c.log ++ [.replaceInto d.table k v] }).getConn cid) = some { c with live := updateStr c.live d.table (t.replaceInto k v), log := c.log ++ [.replaceInto d.table k v] } :=
    getConn_setConn_self _ hlt
  have hms := maybe_sync_spec hA hg1 hcl
  rw [hset, hms]
  dsimp only
  cases hl : d.lazy with
  | true =>
    rw [if_pos rfl]
    have hget := getitem_spec k hA hg1 hcl
      (show lookupStr (updateStr c.live d.table (t.replaceInto k v)) d.table = some (t.replaceInto k v) from lookupStr_updateStr_self _ _ _)
    rw [selectValue_replaceInto_self] at hget
    refine ⟨rfl, ?_, ?_, ?_⟩
    · rw [hg1]
      exact lookupStr_updateStr_self _ _ _
    · rw [hget]
    · unfold SQLiteDict.contains
      rw [hget]
  | false =>
    rw [if_neg (by decide : ¬ false = true)]
    have hg2 := commit_getConn hg1
    have hget := getitem_spec k hA hg2 hcl
      (show lookupStr (updateStr c.live d.table (t.replaceInto k v)) d.table = some (t.replaceInto k v) from lookupStr_updateStr_self _ _ _)
    rw [selectValue_replaceInto_self] at hget
    refine ⟨rfl, ?_, ?_, ?_⟩
    · rw [hg2]
      exact lookupStr_updateStr_self _ _ _
    · rw [hget]
    · unfold SQLiteDict.contains
      rw [hget]

/-- C9, at a concrete state: after set("k", "v") on the fresh eager
in-memory map, the table holds the replaced row and get/contains see it. -/
theorem set_then_get_witness :
    (SQLiteDict.setitem kvOpen.2 kvOpen.1 "k" "v").1 = .ok () ∧
    lookupStr (((SQLiteDict.setitem kvOpen.2 kvOpen.1 "k" "v").2.getConn 0).getD fConn).live "shelf"
      = some (Table.replaceInto [] "k" "v") ∧
    (SQLiteDict.getitem (SQLiteDict.setitem kvOpen.2 kvOpen.1 "k" "v").2 kvOpen.1 "k").1
      = .ok "v" ∧
    (SQLiteDict.contains (SQLiteDict.setitem kvOpen.2 kvOpen.1 "k" "v").2 kvOpen.1 "k").1
      = .ok true :=
  set_then_get kvOpen.2 kvOpen.1 "k" "v" 0 kvConn [] rfl rfl rfl rfl

/-- C10: keys() returns exactly the keys currently present in the table —
a fully materialized list that is a permutation of the table's key column —
in ascending lexical order; and the call re-reads without writing: the
connection afterwards is unchanged but for the logged SELECT, so each call
reflects every set and delete completed before it. -/
theorem keys_sorted_current (w : World) (d : SQLiteDict)
    (cid : Nat) (c : Conn) (t : Table)
    (hA : d.conn = some cid) (hg : w.getConn cid = some c) (hcl : c.closed = false)
    (ht : lookupStr c.live d.table = some t) :
    (SQLiteDict.keys w d).1 = .ok (sortKeys (t.map Prod.fst)) ∧
    List.Sorted keyLe (sortKeys (t.map Prod.fst)) ∧
    List.Perm (sortKeys (t.map Prod.fst)) (t.map Prod.fst) ∧
    (SQLiteDict.keys w d).2.getConn cid
      = some { c with log := c.log ++ [.selectKeys d.table] } := by
  have hk := keys_spec hA hg hcl ht
  refine ⟨by rw [hk], sorted_sortKeys _, perm_sortKeys _, ?_⟩
  rw [hk]
  exact getConn_setConn_self _ (getConn_lt hg)

/-- C10, at a concrete state: after setting "b", "a", "c" the enumeration
is sorted ascending and permutes the stored key column. -/
theorem keys_sorted_current_witness :
    (SQLiteDict.keys kvLoaded kvOpen.1).1
      = .ok (sortKeys ([("b", "1"), ("a", "2"), ("c", "3")].map Prod.fst)) ∧
    List.Sorted keyLe (sortKeys ([("b", "1"), ("a", "2"), ("c", "3")].map Prod.fst)) ∧
    List.Perm (sortKeys ([("b", "1"), ("a", "2"), ("c", "3")].map Prod.fst))
      ([("b", "1"), ("a", "2"), ("c", "3")].map Prod.fst) ∧
    (SQLiteDict.keys kvLoaded kvOpen.1).2.getConn 0
      = some { kvLoadedConn with log := kvLoadedConn.log ++ [.selectKeys "shelf"] } :=
  keys_sorted_current kvLoaded kvOpen.1 0 kvLoadedConn [("b", "1"), ("a", "2"), ("c", "3")]
    rfl rfl rfl rfl
